import Mathlib

set_option maxRecDepth 8000

/-!
Verification of the DID URL core of the pydid repository
(src/pydid/did_url.py), as a shallow embedding over lists of
characters.  Strings are modelled as List Char; the fallible
constructor becomes a function into Except.
-/

deriving instance DecidableEq for Except

namespace PyDID

/-! ## Error model

The code raises InvalidDIDUrlError (a subclass of DIDError and
ValueError), ValueError from tuple unpacking of a multi-part split
result, and urllib's urlparse can raise a plain ValueError on a netloc
containing an unbalanced bracket.  All of them are ValueErrors in
Python's exception hierarchy. -/

inductive PyError where
  | invalidDIDUrl (msg : List Char)
  | unpackValueError
  | invalidIPv6ValueError
deriving DecidableEq, Repr

/-- Whether the exception is (a subclass of) Python's ValueError.
InvalidDIDUrlError subclasses ValueError; tuple-unpack errors and the
urlparse bracket error are ValueErrors. -/
def PyError.isValueError : PyError → Bool
  | .invalidDIDUrl _ => true
  | .unpackValueError => true
  | .invalidIPv6ValueError => true

/-! ## Pattern matcher

The regular expressions DID_URL_DID_PART_PATTERN and
DID_URL_RELATIVE_FRONT are imported from pydid/common.py, which is not
part of the sources at hand; they are modelled from the spec. -/

/-- Characters allowed in a DID method name: lowercase letters and digits. -/
def methodChar (c : Char) : Bool := c.isLower || c.isDigit

/-- Characters allowed in a method-specific id: letters, digits,
period, hyphen, underscore, colon. -/
def idChar (c : Char) : Bool :=
  c.isAlpha || c.isDigit || c = '.' || c = '-' || c = '_' || c = ':'

/-- Modelled from the spec: DID_URL_DID_PART_PATTERN, applied with
re.match (anchored at the start of the string, not at its end).  The
DID-part grammar is did:(method):(method-specific-id) where the method
is a non-empty run of lowercase letters/digits and the
method-specific-id is a non-empty run of letters, digits and . - _ :,
matched greedily, so it stops where a path/query/fragment delimiter
(or any other foreign character) begins.  Returns the matched DID text
(the group the constructor stores as self.did), or none if the
pattern does not match. -/
def didPartMatch (s : List Char) : Option (List Char) :=
  match s with
  | 'd' :: 'i' :: 'd' :: ':' :: rest =>
    match rest.dropWhile methodChar with
    | ':' :: rest2 =>
      if rest.takeWhile methodChar = [] then none
      else if rest2.takeWhile idChar = [] then none
      else some ('d' :: 'i' :: 'd' :: ':' ::
        (rest.takeWhile methodChar ++ ':' :: rest2.takeWhile idChar))
    | _ => none
  | _ => none

/-- Modelled from the spec: DID_URL_RELATIVE_FRONT, applied with
re.match.  It matches exactly when the string begins with one of
/ ? # (the only valid starts of a relative DID URL). -/
def relativeFrontMatch (s : List Char) : Bool :=
  match s with
  | c :: _ => c = '/' || c = '?' || c = '#'
  | [] => false

/-- The message of the InvalidDIDUrlError raised by the constructor:
the offending url followed by a fixed explanatory text (the code
builds it with str.format). -/
def errMsg (url : List Char) : List Char :=
  url ++ (" is not a valid absolute or relative DID URL").toList

/-! ## Python str.split with a non-empty separator

url.split(self.did) splits on every non-overlapping occurrence of the
separator, scanning left to right.  The recursion is driven by a fuel
argument equal to the length of the string, which strictly exceeds the
number of scanning steps. -/

def pySplitGo (a : Char) (sep : List Char) : Nat → List Char → List Char → List (List Char)
  | _, [], acc => [acc.reverse]
  | 0, s, acc => [acc.reverse ++ s]
  | fuel+1, c :: rest, acc =>
    if (a :: sep).isPrefixOf (c :: rest)
    then acc.reverse :: pySplitGo a sep fuel (rest.drop sep.length) []
    else pySplitGo a sep fuel rest (c :: acc)

/-- Python str.split(sep) for a non-empty separator.  (Python raises
ValueError on an empty separator; the separator used by the
constructor is a matched DID, which always starts with 'd'.) -/
def pySplit (sep s : List Char) : List (List Char) :=
  match sep with
  | [] => [s]
  | a :: sep' => pySplitGo a sep' s.length s []

/-! ## urllib.parse.urlparse -/

/-- urlsplit removes tab, carriage return and newline characters from
the url before parsing (WHATWG unsafe bytes). -/
def cleanUrl (s : List Char) : List Char :=
  s.filter (fun c => !(c = '\t' || c = '\r' || c = '\n'))

/-- Characters allowed in a URL scheme after the first: letters,
digits, plus, hyphen, period. -/
def schemeChar (c : Char) : Bool :=
  c.isAlpha || c.isDigit || c = '+' || c = '-' || c = '.'

/-- Split a list at the first occurrence of a character: returns the
part before it and the part after it, or none when absent. -/
def splitAtFirst (d : Char) : List Char → Option (List Char × List Char)
  | [] => none
  | c :: rest =>
    if c = d then some ([], rest)
    else (splitAtFirst d rest).map (fun p => (c :: p.1, p.2))

/-- urlsplit's scheme step: if the url has a colon at a positive
position, the first character is a letter and everything before the
colon is a scheme character, the scheme (lowercased) is split off. -/
def extractScheme (u : List Char) : List Char × List Char :=
  match splitAtFirst ':' u with
  | some (pre, post) =>
    if pre ≠ [] ∧ (match pre with | c :: _ => c.isAlpha | [] => false) = true
        ∧ pre.all schemeChar = true
    then (pre.map Char.toLower, post) else ([], u)
  | none => ([], u)

/-- Delimiters ending a netloc. -/
def netlocDelim (c : Char) : Bool := c = '/' || c = '?' || c = '#'

/-- urlsplit's netloc step: when the url starts with //, the netloc
runs to the next / ? or #; a netloc with an unbalanced square bracket
raises ValueError (Invalid IPv6 URL). -/
def extractNetloc (u : List Char) : Except PyError (List Char × List Char) :=
  match u with
  | '/' :: '/' :: rest =>
    if (rest.takeWhile (fun c => !netlocDelim c)).contains '['
        ≠ (rest.takeWhile (fun c => !netlocDelim c)).contains ']'
    then .error .invalidIPv6ValueError
    else .ok (rest.takeWhile (fun c => !netlocDelim c),
              rest.dropWhile (fun c => !netlocDelim c))
  | _ => .ok ([], u)

structure UrlParts where
  scheme : List Char
  netloc : List Char
  path : List Char
  params : List Char
  query : List Char
  fragment : List Char
deriving DecidableEq, Repr

/-- urlsplit's fragment step: split at the first '#'; everything
after it is the fragment (empty when there is no '#'). -/
def splitFragment (u : List Char) : List Char × List Char :=
  match splitAtFirst '#' u with
  | some p => p
  | none => (u, [])

/-- urlsplit's query step: split at the first '?'; everything after
it is the query (empty when there is no '?'). -/
def splitQuery (u : List Char) : List Char × List Char :=
  match splitAtFirst '?' u with
  | some p => p
  | none => (u, [])

/-- urllib.parse.urlsplit: clean the url, then split off scheme,
netloc, fragment (everything after the first '#' of the remainder)
and query (everything after the first '?' of what is left). -/
def pyUrlsplit (url : List Char) : Except PyError UrlParts :=
  match extractNetloc (extractScheme (cleanUrl url)).2 with
  | .error e => .error e
  | .ok (netloc, u2) =>
    .ok { scheme := (extractScheme (cleanUrl url)).1
          netloc := netloc
          path := (splitQuery (splitFragment u2).1).1
          params := []
          query := (splitQuery (splitFragment u2).1).2
          fragment := (splitFragment u2).2 }

/-- Index of the last occurrence of a character, if any. -/
def rfindIdx (c : Char) (s : List Char) : Option Nat :=
  (splitAtFirst c s.reverse).map (fun p => s.length - 1 - p.1.length)

/-- urllib.parse's _splitparams: split the parameters of the last
path segment (after ';') from the path. -/
def splitParams (p : List Char) : List Char × List Char :=
  let start := if p.contains '/' then (rfindIdx '/' p).getD 0 else 0
  match (splitAtFirst ';' (p.drop start)).map (fun q => start + q.1.length) with
  | some i => (p.take i, p.drop (i+1))
  | none => (p, [])

/-- urllib.parse.urlparse: urlsplit, then the params of the path are
split off when the path contains a ';'. -/
def pyUrlparse (url : List Char) : Except PyError UrlParts :=
  (pyUrlsplit url).map (fun parts =>
    if parts.path.contains ';' then
      { parts with path := (splitParams parts.path).1
                   params := (splitParams parts.path).2 }
    else parts)

/-! ## urllib.parse.parse_qsl and percent decoding -/

def hexVal (c : Char) : Option Nat :=
  if '0' ≤ c ∧ c ≤ '9' then some (c.toNat - '0'.toNat)
  else if 'a' ≤ c ∧ c ≤ 'f' then some (c.toNat - 'a'.toNat + 10)
  else if 'A' ≤ c ∧ c ≤ 'F' then some (c.toNat - 'A'.toNat + 10)
  else none

/-- Tokenize a percent-encoded string: a '%' followed by two hex
digits becomes a byte, everything else stays a literal character. -/
def unquoteScan : List Char → List (Sum Char Nat)
  | '%' :: h1 :: h2 :: rest =>
    match hexVal h1, hexVal h2 with
    | some a, some b => .inr (16*a + b) :: unquoteScan rest
    | _, _ => .inl '%' :: unquoteScan (h1 :: h2 :: rest)
  | c :: rest => .inl c :: unquoteScan rest
  | [] => []

/-- Decode a UTF-8 byte sequence; sequences that are not valid UTF-8
contribute the replacement character U+FFFD (the errors='replace'
policy of the str decoding used by unquote; the exact number of bytes
a malformed sequence consumes is irrelevant to the properties proved
here, none of which evaluates unquote on malformed non-ASCII input).
The fuel argument, instantiated with the length of the byte list,
only drives the recursion; each step consumes at least one byte. -/
def utf8DecodeGo : Nat → List Nat → List Char
  | _, [] => []
  | 0, bs => bs.map (fun _ => '�')
  | fuel+1, b :: rest =>
    if b < 0x80 then Char.ofNat b :: utf8DecodeGo fuel rest
    else if 0xC2 ≤ b ∧ b ≤ 0xDF then
      match rest with
      | c1 :: r =>
        if 0x80 ≤ c1 ∧ c1 ≤ 0xBF then
          (Char.ofNat ((b - 0xC0) * 64 + (c1 - 0x80))) :: utf8DecodeGo fuel r
        else '�' :: utf8DecodeGo fuel rest
      | [] => ['�']
    else if 0xE0 ≤ b ∧ b ≤ 0xEF then
      match rest with
      | c1 :: c2 :: r =>
        if (0x80 ≤ c1 ∧ c1 ≤ 0xBF) ∧ (0x80 ≤ c2 ∧ c2 ≤ 0xBF)
            ∧ (b = 0xE0 → 0xA0 ≤ c1) ∧ (b = 0xED → c1 ≤ 0x9F) then
          (Char.ofNat ((b - 0xE0) * 4096 + (c1 - 0x80) * 64 + (c2 - 0x80)))
            :: utf8DecodeGo fuel r
        else '�' :: utf8DecodeGo fuel rest
      | _ => '�' :: utf8DecodeGo fuel rest
    else if 0xF0 ≤ b ∧ b ≤ 0xF4 then
      match rest with
      | c1 :: c2 :: c3 :: r =>
        if (0x80 ≤ c1 ∧ c1 ≤ 0xBF) ∧ (0x80 ≤ c2 ∧ c2 ≤ 0xBF)
            ∧ (0x80 ≤ c3 ∧ c3 ≤ 0xBF)
            ∧ (b = 0xF0 → 0x90 ≤ c1) ∧ (b = 0xF4 → c1 ≤ 0x8F) then
          (Char.ofNat ((b - 0xF0) * 262144 + (c1 - 0x80) * 4096
              + (c2 - 0x80) * 64 + (c3 - 0x80))) :: utf8DecodeGo fuel r
        else '�' :: utf8DecodeGo fuel rest
      | _ => '�' :: utf8DecodeGo fuel rest
    else '�' :: utf8DecodeGo fuel rest

def utf8Decode (bs : List Nat) : List Char := utf8DecodeGo bs.length bs

/-- Regroup the token stream: maximal runs of bytes (collected in the
accumulator, in reverse) are decoded as UTF-8, literal characters
pass through. -/
def unquoteAsm (acc : List Nat) : List (Sum Char Nat) → List Char
  | [] => utf8Decode acc.reverse
  | .inl c :: rest => utf8Decode acc.reverse ++ c :: unquoteAsm [] rest
  | .inr b :: rest => unquoteAsm (b :: acc) rest

/-- urllib.parse.unquote with the default utf-8/replace policy:
percent-escapes that form hex byte pairs are decoded (byte runs as
UTF-8), malformed escapes pass through unchanged. -/
def unquote (s : List Char) : List Char := unquoteAsm [] (unquoteScan s)

/-- Python single-character str.split. -/
def splitOnChar (sep : Char) : List Char → List (List Char)
  | [] => [[]]
  | c :: rest =>
    let ps := splitOnChar sep rest
    if c = sep then [] :: ps
    else
      match ps with
      | [] => [[c]]
      | p :: ps' => (c :: p) :: ps'

def plusToSpace (s : List Char) : List Char :=
  s.map (fun c => if c = '+' then ' ' else c)

/-- One field of a query string, per parse_qsl with the default
keep_blank_values=False, strict_parsing=False: empty fields, fields
without '=' and fields with an empty value are dropped; name and
value get '+' turned into spaces and are percent-decoded. -/
def qslField (f : List Char) : Option (List Char × List Char) :=
  if f = [] then none
  else
    match splitAtFirst '=' f with
    | none => none
    | some (n, v) =>
      if v = [] then none
      else some (unquote (plusToSpace n), unquote (plusToSpace v))

/-- urllib.parse.parse_qsl with default arguments (separator '&'). -/
def parse_qsl (qs : List Char) : List (List Char × List Char) :=
  (if qs = [] then [] else splitOnChar '&' qs).filterMap qslField

/-- Python dict(pairs): later values overwrite earlier ones, the key
keeps its first insertion position. -/
def dictInsert (m : List (List Char × List Char)) (k v : List Char) :
    List (List Char × List Char) :=
  if m.any (fun p => p.1 == k) then m.map (fun p => if p.1 == k then (k, v) else p)
  else m ++ [(k, v)]

def dictOfPairs (ps : List (List Char × List Char)) : List (List Char × List Char) :=
  ps.foldl (fun m p => dictInsert m p.1 p.2) []

/-! ## urllib.parse.urlencode and percent encoding -/

def concatMap (f : Char → List Char) : List Char → List Char
  | [] => []
  | c :: rest => f c ++ concatMap f rest

/-- UTF-8 encoding of a single character (exact). -/
def utf8Encode (c : Char) : List Nat :=
  let n := c.toNat
  if n < 0x80 then [n]
  else if n < 0x800 then [0xC0 + n / 64, 0x80 + n % 64]
  else if n < 0x10000 then
    [0xE0 + n / 4096, 0x80 + (n / 64) % 64, 0x80 + n % 64]
  else
    [0xF0 + n / 262144, 0x80 + (n / 4096) % 64, 0x80 + (n / 64) % 64,
     0x80 + n % 64]

def hexDigit (n : Nat) : Char :=
  if n < 10 then Char.ofNat ('0'.toNat + n) else Char.ofNat ('A'.toNat + n - 10)

def pctByte (b : Nat) : List Char := ['%', hexDigit (b / 16), hexDigit (b % 16)]

/-- Characters urllib.parse.quote never encodes: letters, digits,
underscore, period, hyphen, tilde. -/
def alwaysSafe (c : Char) : Bool :=
  c.isAlpha || c.isDigit || c = '_' || c = '.' || c = '-' || c = '~'

/-- urllib.parse.quote of one character with safe=''. -/
def quoteChar (c : Char) : List Char :=
  if alwaysSafe c then [c]
  else ((utf8Encode c).map pctByte).foldr (· ++ ·) []

/-- urllib.parse.quote_plus with safe='': spaces become '+', every
other character not always-safe is percent-encoded (UTF-8 bytes,
uppercase hex). -/
def quotePlus (s : List Char) : List Char :=
  concatMap (fun c => if c = ' ' then ['+'] else quoteChar c) s

def joinWith (sep : List Char) : List (List Char) → List Char
  | [] => []
  | [x] => x
  | x :: xs => x ++ sep ++ joinWith sep xs

/-- urllib.parse.urlencode with default arguments on an ordered
mapping: key=value pairs quoted with quote_plus, joined with '&'. -/
def urlencode (q : List (List Char × List Char)) : List Char :=
  joinWith ['&'] (q.map (fun p => quotePlus p.1 ++ '=' :: quotePlus p.2))

/-! ## The DIDUrl value -/

/-- The DIDUrl value object.  The class subclasses str: text is the
underlying string value (the exact argument of the constructor); the
constructor additionally stores the decomposed did, path, query and
fragment attributes. -/
structure DIDUrl where
  text : List Char
  did : Option (List Char)
  path : Option (List Char)
  query : Option (List (List Char × List Char))
  fragment : Option (List Char)
deriving DecidableEq, Repr

/-- The pattern matcher step of DIDUrl.__init__: match the DID-part
pattern; on success split the url on the matched DID text (literal
substring split) and unpack into exactly two parts, the second being
the url component; otherwise require the relative-front pattern, the
whole url being the url component; otherwise raise InvalidDIDUrlError
carrying the offending string. -/
def matcherSplit (url : List Char) : Except PyError (Option (List Char) × List Char) :=
  match didPartMatch url with
  | some did =>
    match pySplit did url with
    | [_, comp] => .ok (some did, comp)
    | _ => .error .unpackValueError
  | none =>
    if relativeFrontMatch url then .ok (none, url)
    else .error (.invalidDIDUrl (errMsg url))

/-- The attribute assignments at the end of DIDUrl.__init__:
path is parts.path or None, query is dict(parse_qsl(parts.query)) if
parts.query else None, fragment is parts.fragment or None. -/
def buildDIDUrl (url : List Char) (did : Option (List Char)) (parts : UrlParts) :
    DIDUrl :=
  { text := url
    did := did
    path := if parts.path = [] then none else some parts.path
    query := if parts.query = [] then none
             else some (dictOfPairs (parse_qsl parts.query))
    fragment := if parts.fragment = [] then none else some parts.fragment }

/-- DIDUrl.parse (the constructor DIDUrl.__init__). -/
def DIDUrl.parse (url : List Char) : Except PyError DIDUrl :=
  match matcherSplit url with
  | .error e => .error e
  | .ok (did, comp) =>
    match pyUrlparse comp with
    | .error e => .error e
    | .ok parts => .ok (buildDIDUrl url did parts)

/-- DIDUrl.validate: a thin alias for parse. -/
def DIDUrl.validate (url : List Char) : Except PyError DIDUrl := DIDUrl.parse url

/-- DIDUrl.is_valid: try validate; a ValueError yields False, success
yields True, and any exception that is not a ValueError propagates. -/
def DIDUrl.is_valid (url : List Char) : Except PyError Bool :=
  match DIDUrl.validate url with
  | .ok _ => .ok true
  | .error e => if e.isValueError then .ok false else .error e

/-! ## DIDUrl.unparse and as_absolute

The fragment argument of unparse is annotated Optional[str] but
Python does not enforce the annotation, and the function stringifies
it; the argument is therefore modelled as a string or an integer, the
two shapes the spec discusses, with Python's truthiness. -/

inductive FragArg where
  | ofStr (s : List Char)
  | ofInt (n : Int)
deriving DecidableEq, Repr

/-- Python truthiness: a string is truthy iff non-empty, an integer
iff non-zero. -/
def FragArg.truthy : FragArg → Bool
  | .ofStr s => !s.isEmpty
  | .ofInt n => n != 0

/-- Python str() of the value. -/
def FragArg.toStr : FragArg → List Char
  | .ofStr s => s
  | .ofInt n => (toString n).toList

/-- The path rebinding of unparse: a truthy path not starting with
'/' gets one prepended. -/
def normPath (path : Option (List Char)) : Option (List Char) :=
  match path with
  | some p => if p ≠ [] ∧ p.head? ≠ some '/' then some ('/' :: p) else some p
  | none => none

/-- The fragment rebinding of unparse: str(fragment) if fragment else
None, with Python truthiness tested on the original value. -/
def normFrag (fragment : Option FragArg) : Option (List Char) :=
  match fragment with
  | some f => if f.truthy then some f.toStr else none
  | none => none

/-- What the (rebound) path contributes to the composed value: itself
when truthy, nothing otherwise. -/
def pathChunk (path : Option (List Char)) : List Char :=
  match normPath path with
  | some p => if p = [] then [] else p
  | none => []

/-- What the query contributes to the composed value: '?' plus its
urlencode when truthy, nothing otherwise. -/
def queryChunk (query : Option (List (List Char × List Char))) : List Char :=
  match query with
  | some q => if q = [] then [] else '?' :: urlencode q
  | none => []

/-- What the (rebound) fragment contributes to the composed value:
'#' plus the fragment when truthy, nothing otherwise. -/
def fragChunk (fragment : Option FragArg) : List Char :=
  match normFrag fragment with
  | some f => if f = [] then [] else '#' :: f
  | none => []

/-- The string composed by DIDUrl.unparse before it is fed back
through the constructor: start from the did and append, in order,
the path, query and fragment contributions. -/
def composeValue (did : List Char) (path : Option (List Char))
    (query : Option (List (List Char × List Char)))
    (fragment : Option FragArg) : List Char :=
  did ++ pathChunk path ++ queryChunk query ++ fragChunk fragment

/-- DIDUrl.unparse: compose the string from the parts, then return
cls(value), i.e. re-parse it through the constructor. -/
def DIDUrl.unparse (did : List Char) (path : Option (List Char))
    (query : Option (List (List Char × List Char)))
    (fragment : Option FragArg) : Except PyError DIDUrl :=
  DIDUrl.parse (composeValue did path query fragment)

/-- DIDUrl.as_absolute: unparse with the given did and the value's
own path, query and fragment (a stored fragment is a string). -/
def DIDUrl.as_absolute (v : DIDUrl) (did : List Char) : Except PyError DIDUrl :=
  DIDUrl.unparse did v.path v.query (v.fragment.map FragArg.ofStr)

/-! ## Auxiliary notions used in the claim statements -/

/-- The text after the first '#' of a string, empty when there is
none. -/
def afterFirstHash (s : List Char) : List Char :=
  match splitAtFirst '#' s with
  | some p => p.2
  | none => []

/-- Modelled from the spec: standard percent-encoding of a fragment
(unreserved characters pass, everything else is encoded as its UTF-8
bytes in %XX form).  Used only to compare the spec's description of
unparse with what the code does. -/
def specPercentEncode (s : List Char) : List Char := concatMap quoteChar s

/-! ## Helper lemmas -/

theorem isValueError_true (e : PyError) : e.isValueError = true := by
  cases e <;> rfl

theorem parse_ok_text {s : List Char} {u : DIDUrl} (h : DIDUrl.parse s = .ok u) :
    u.text = s := by
  unfold DIDUrl.parse at h
  cases hm : matcherSplit s with
  | error e => rw [hm] at h; cases h
  | ok p =>
    obtain ⟨did, comp⟩ := p
    rw [hm] at h
    dsimp only at h
    cases hp : pyUrlparse comp with
    | error e => rw [hp] at h; cases h
    | ok parts =>
      rw [hp] at h
      cases h
      rfl

theorem isPrefixOf_exists_append (d : List Char) :
    ∀ s, d.isPrefixOf s = true ↔ ∃ t, s = d ++ t := by
  induction d with
  | nil => intro s; simp [List.isPrefixOf]
  | cons a d ih =>
    intro s
    cases s with
    | nil => simp [List.isPrefixOf]
    | cons c rest =>
      show (a == c && d.isPrefixOf rest) = true ↔ _
      rw [Bool.and_eq_true, beq_iff_eq, ih rest]
      constructor
      · rintro ⟨rfl, t, rfl⟩
        exact ⟨t, rfl⟩
      · rintro ⟨t, ht⟩
        injection ht with h1 h2
        exact ⟨h1.symm, t, h2⟩

theorem dropWhile_head_false (p : Char → Bool) :
    ∀ (l : List Char) (c : Char), (l.dropWhile p).head? = some c → p c = false := by
  intro l
  induction l with
  | nil => intro c h; cases h
  | cons a l ih =>
    intro c h
    by_cases hp : p a
    · rw [List.dropWhile_cons_of_pos hp] at h
      exact ih c h
    · rw [List.dropWhile_cons_of_neg hp] at h
      injection h with h'
      subst h'
      simpa using hp

theorem methodChar_idChar {c : Char} (h : methodChar c = true) : idChar c = true := by
  unfold methodChar at h
  unfold idChar
  cases hl : c.isLower with
  | true => simp [Char.isAlpha, hl]
  | false =>
    rw [hl, Bool.false_or] at h
    simp [h]

/-- Structure of a successful DID-part match: the matched DID text is
a prefix of the input, every character of it satisfies idChar (so the
DID text cannot straddle the boundary), and the remainder starts with
a character that is not an idChar (the greedy match stopped there). -/
theorem didPartMatch_spec {s d : List Char} (h : didPartMatch s = some d) :
    (∃ comp, s = d ++ comp ∧ ∀ c, comp.head? = some c → idChar c = false)
    ∧ (∀ c ∈ d, idChar c = true) ∧ d ≠ [] := by
  unfold didPartMatch at h
  split at h
  case h_2 => cases h
  rename_i rest
  split at h
  case h_2 => cases h
  rename_i rest2 hdrop
  split at h
  · cases h
  split at h
  · cases h
  rename_i hm hmid
  injection h with h
  subst h
  refine ⟨⟨rest2.dropWhile idChar, ?_, ?_⟩, ?_, by simp⟩
  · have h1 : rest.takeWhile methodChar ++ ':' :: rest2 = rest := by
      conv_rhs => rw [← List.takeWhile_append_dropWhile methodChar rest]
      rw [hdrop]
    have h2 : rest2.takeWhile idChar ++ rest2.dropWhile idChar = rest2 :=
      List.takeWhile_append_dropWhile idChar rest2
    simp only [List.cons_append, List.append_assoc]
    rw [h2, h1]
  · intro c hc
    exact dropWhile_head_false idChar rest2 c hc
  · intro c hc
    simp only [List.mem_cons, List.mem_append] at hc
    rcases hc with rfl | rfl | rfl | rfl | hc | rfl | hc
    · decide
    · decide
    · decide
    · decide
    · exact methodChar_idChar (List.mem_takeWhile_imp hc)
    · decide
    · exact List.mem_takeWhile_imp hc

theorem pySplitGo_succ_cons (a : Char) (sep : List Char) (fuel : Nat)
    (c : Char) (rest acc : List Char) :
    pySplitGo a sep (fuel+1) (c :: rest) acc =
      if (a :: sep).isPrefixOf (c :: rest)
      then acc.reverse :: pySplitGo a sep fuel (rest.drop sep.length) []
      else pySplitGo a sep fuel rest (c :: acc) := rfl

theorem pySplitGo_ne_nil (a : Char) (sep : List Char) :
    ∀ fuel s acc, pySplitGo a sep fuel s acc ≠ [] := by
  intro fuel
  induction fuel with
  | zero => intro s acc; cases s <;> simp [pySplitGo]
  | succ n ih =>
    intro s acc
    cases s with
    | nil => simp [pySplitGo]
    | cons c rest =>
      rw [pySplitGo_succ_cons]
      split
      · simp
      · exact ih rest (c :: acc)

/-- The left-to-right scan of Python str.split finds a part boundary
whenever the separator occurs in the string: the result has at least
two parts. -/
theorem pySplitGo_finds (a : Char) (sep : List Char) :
    ∀ fuel s acc, s.length ≤ fuel →
      (∃ t1 t2, s = t1 ++ (a :: sep) ++ t2) →
      2 ≤ (pySplitGo a sep fuel s acc).length := by
  intro fuel
  induction fuel with
  | zero =>
    rintro s acc hf ⟨t1, t2, he⟩
    rw [List.length_eq_zero.mp (Nat.le_zero.mp hf)] at he
    exact absurd he.symm (by simp)
  | succ n ih =>
    rintro s acc hf hocc
    cases s with
    | nil =>
      rcases hocc with ⟨t1, t2, he⟩
      exact absurd he.symm (by simp)
    | cons c rest =>
      rw [pySplitGo_succ_cons]
      by_cases hpre : (a :: sep).isPrefixOf (c :: rest) = true
      · rw [if_pos hpre]
        have h1 := pySplitGo_ne_nil a sep n (rest.drop sep.length) []
        have h2 := List.length_pos.mpr h1
        simp only [List.length_cons]
        omega
      · rw [if_neg hpre]
        apply ih rest (c :: acc)
        · simp only [List.length_cons] at hf
          omega
        · rcases hocc with ⟨t1, t2, he⟩
          cases t1 with
          | nil =>
            exfalso
            apply hpre
            rw [isPrefixOf_exists_append]
            exact ⟨t2, by simpa using he⟩
          | cons x t1' =>
            rw [List.cons_append, List.cons_append] at he
            injection he with h1 h2
            exact ⟨t1', t2, h2⟩

/-- If the DID text, all of whose characters are idChars, occurs at a
nonzero position of did ++ comp, where comp starts with a character
that is not an idChar, then the occurrence lies entirely inside
comp. -/
theorem occurrence_in_comp {d comp : List Char}
    (hid : ∀ c ∈ d, idChar c = true)
    (hcomp : ∀ c, comp.head? = some c → idChar c = false)
    {j : Nat} (hj : j ≠ 0)
    (hocc : d.isPrefixOf ((d ++ comp).drop j) = true) :
    ∃ t1 t2, comp = t1 ++ d ++ t2 := by
  rw [isPrefixOf_exists_append] at hocc
  rcases hocc with ⟨t, ht⟩
  rw [List.drop_append_eq_append_drop] at ht
  by_cases hle : j ≤ d.length
  · exfalso
    rw [Nat.sub_eq_zero_of_le hle, List.drop_zero] at ht
    -- ht : d.drop j ++ comp = d ++ t
    have hj1 : 1 ≤ j := Nat.one_le_iff_ne_zero.mpr hj
    cases hc : comp with
    | nil =>
      rw [hc] at ht
      have hlen := congrArg List.length ht
      simp only [List.length_append, List.length_drop, List.length_nil] at hlen
      omega
    | cons c ctl =>
      have hfalse : idChar c = false := hcomp c (by rw [hc]; rfl)
      have htake := congrArg (List.take d.length) ht
      rw [List.take_append_eq_append_take, List.take_append_eq_append_take,
        List.take_length, Nat.sub_self, List.take_zero, List.append_nil,
        List.take_of_length_le
          (show (List.drop j d).length ≤ d.length by simp [List.length_drop]),
        List.length_drop, Nat.sub_sub_self hle] at htake
      -- htake : d.drop j ++ comp.take j = d
      have hcmem : c ∈ d := by
        rw [← htake]
        apply List.mem_append_right
        rw [hc]
        cases j with
        | zero => exact absurd rfl hj
        | succ j' =>
          rw [List.take_succ_cons]
          exact List.mem_cons_self c _
      rw [hid c hcmem] at hfalse
      cases hfalse
  · push_neg at hle
    rw [List.drop_eq_nil_of_le (by omega), List.nil_append] at ht
    refine ⟨comp.take (j - d.length), t, ?_⟩
    conv_lhs => rw [← List.take_append_drop (j - d.length) comp]
    rw [ht, List.append_assoc]

/-- Splitting did ++ comp on the did (a prefix) yields an empty first
part followed by the scan of comp. -/
theorem pySplit_of_did {d : List Char} (comp : List Char) (hd : d ≠ []) :
    ∃ a sep', d = a :: sep' ∧
      pySplit d (d ++ comp)
        = [] :: pySplitGo a sep' (sep'.length + comp.length) comp [] := by
  cases d with
  | nil => exact absurd rfl hd
  | cons a sep' =>
    refine ⟨a, sep', rfl, ?_⟩
    show pySplitGo a sep' ((a :: sep' ++ comp).length) (a :: sep' ++ comp) [] = _
    have hl : (a :: sep' ++ comp).length = (sep'.length + comp.length) + 1 := by
      simp only [List.cons_append, List.length_cons, List.length_append]
    rw [hl, show a :: sep' ++ comp = a :: (sep' ++ comp) from rfl,
      pySplitGo_succ_cons,
      if_pos ((isPrefixOf_exists_append _ _).mpr ⟨comp, by simp⟩),
      List.drop_left, List.reverse_nil]

theorem matcherSplit_unpack {s d : List Char} (hm : didPartMatch s = some d)
    (hlen : 3 ≤ (pySplit d s).length) :
    matcherSplit s = .error .unpackValueError := by
  unfold matcherSplit
  rw [hm]
  dsimp only
  revert hlen
  rcases h : pySplit d s with _ | ⟨x, _ | ⟨y, _ | ⟨z, w⟩⟩⟩
  · intro hlen; simp at hlen
  · intro hlen; simp at hlen
  · intro hlen; simp at hlen
  · intro _; rfl

/-- When the matched DID text occurs again at a nonzero position of
the input, the split has at least three parts and the constructor
raises the tuple-unpack ValueError. -/
theorem parse_unpack_error {s d : List Char} (hm : didPartMatch s = some d)
    {j : Nat} (hj : j ≠ 0) (hocc : d.isPrefixOf (s.drop j) = true) :
    DIDUrl.parse s = .error .unpackValueError := by
  obtain ⟨⟨comp, hs, hcomp⟩, hid, hd⟩ := didPartMatch_spec hm
  subst hs
  have hocc' := occurrence_in_comp hid hcomp hj hocc
  obtain ⟨a, sep', hd_eq, hsplit⟩ := pySplit_of_did comp hd
  have hlen : 3 ≤ (pySplit d (d ++ comp)).length := by
    rw [hsplit, List.length_cons]
    have h2 : 2 ≤ (pySplitGo a sep' (sep'.length + comp.length) comp []).length := by
      apply pySplitGo_finds a sep' _ comp [] (by omega)
      rcases hocc' with ⟨t1, t2, hc⟩
      exact ⟨t1, t2, by rw [← hd_eq]; exact hc⟩
    omega
  have hms := matcherSplit_unpack hm hlen
  unfold DIDUrl.parse
  rw [hms]

end PyDID

/-- C1: for every string s accepted as a valid absolute or relative
DID URL (is_valid returns True), parse succeeds and the canonical
textual form of the returned DIDUrl is s itself, exactly: the value
subclasses str and retains the constructor argument unchanged (the
normalization of empty path/query/fragment affects only the decomposed
attributes, never the text). -/
theorem PyDID.c1_parse_roundtrip_text (s : List Char)
    (h : PyDID.DIDUrl.is_valid s = .ok true) :
    ∃ u, PyDID.DIDUrl.parse s = .ok u ∧ u.text = s := by
  cases hp : PyDID.DIDUrl.parse s with
  | error e =>
    exfalso
    unfold PyDID.DIDUrl.is_valid PyDID.DIDUrl.validate at h
    rw [hp] at h
    simp [PyDID.isValueError_true] at h
  | ok u => exact ⟨u, rfl, PyDID.parse_ok_text hp⟩

/-- Witness for C1 at the spec's absolute example string. -/
theorem PyDID.c1_witness :
    ∃ u, PyDID.DIDUrl.parse ("did:example:123/some/path?query=test#fragment").toList
        = .ok u ∧
      u.text = ("did:example:123/some/path?query=test#fragment").toList :=
  PyDID.c1_parse_roundtrip_text _ (by decide)

/-- C3: every string matching neither the DID-part pattern nor the
relative-front pattern makes parse raise InvalidDIDUrlError, whose
message contains the offending input string. -/
theorem PyDID.c3_invalid_error (s : List Char)
    (h1 : PyDID.didPartMatch s = none)
    (h2 : PyDID.relativeFrontMatch s = false) :
    PyDID.DIDUrl.parse s = .error (.invalidDIDUrl (PyDID.errMsg s)) ∧
      ∃ pre suf, PyDID.errMsg s = pre ++ s ++ suf := by
  refine ⟨?_, [], (" is not a valid absolute or relative DID URL").toList, rfl⟩
  unfold PyDID.DIDUrl.parse PyDID.matcherSplit
  rw [h1, h2]
  rfl

/-- Witness for C3 at the spec's invalid example string. -/
theorem PyDID.c3_witness :
    PyDID.DIDUrl.parse ("not-a-did-at-all").toList
        = .error (.invalidDIDUrl (PyDID.errMsg ("not-a-did-at-all").toList)) ∧
      ∃ pre suf, PyDID.errMsg ("not-a-did-at-all").toList
        = pre ++ ("not-a-did-at-all").toList ++ suf :=
  PyDID.c3_invalid_error _ (by decide) (by decide)

/-- C8: is_valid returns True exactly when parse succeeds; every
error parse can raise is a ValueError and makes is_valid return
False; and is_valid re-raises an error exactly when parse raised one
that is not a ValueError (which never happens for this parser, as
every conceivable error is a ValueError). -/
theorem PyDID.c8_is_valid_spec (s : List Char) :
    (PyDID.DIDUrl.is_valid s = .ok true ↔ ∃ u, PyDID.DIDUrl.parse s = .ok u) ∧
    (∀ e, PyDID.DIDUrl.parse s = .error e →
      e.isValueError = true ∧ PyDID.DIDUrl.is_valid s = .ok false) ∧
    (∀ e, PyDID.DIDUrl.is_valid s = .error e ↔
      (PyDID.DIDUrl.parse s = .error e ∧ e.isValueError = false)) := by
  unfold PyDID.DIDUrl.is_valid PyDID.DIDUrl.validate
  cases hp : PyDID.DIDUrl.parse s with
  | error e => simp [PyDID.isValueError_true]
  | ok u => simp

/-- Witness for C8: on a parseable string is_valid returns True, and
on an unparseable one the raised error is a ValueError and is_valid
returns False. -/
theorem PyDID.c8_witness :
    PyDID.DIDUrl.is_valid ("did:example:123").toList = .ok true ∧
      PyDID.DIDUrl.is_valid ("banana").toList = .ok false :=
  ⟨(PyDID.c8_is_valid_spec _).1.mpr
      ⟨PyDID.DIDUrl.mk ("did:example:123").toList
        (some ("did:example:123").toList) none none none, by decide⟩,
   ((PyDID.c8_is_valid_spec _).2.1
      (.invalidDIDUrl (PyDID.errMsg ("banana").toList)) (by decide)).2⟩

/-- C9: as_absolute is definitionally the call to unparse with the
given did and the value's own path, query and fragment (an existing
did is ignored and thus silently overwritten); and for the relative
DIDUrl parsed from /some/path#frag with did did:example:123 it yields
the same string as parsing did:example:123/some/path#frag directly. -/
theorem PyDID.c9_as_absolute :
    (∀ (v : PyDID.DIDUrl) (did : List Char),
      v.as_absolute did
        = PyDID.DIDUrl.unparse did v.path v.query (v.fragment.map .ofStr)) ∧
    (PyDID.DIDUrl.parse ("/some/path#frag").toList).map
        (fun v => (v.as_absolute ("did:example:123").toList).map
          PyDID.DIDUrl.text)
      = .ok (.ok ("did:example:123/some/path#frag").toList) ∧
    (PyDID.DIDUrl.parse ("did:example:123/some/path#frag").toList).map
        PyDID.DIDUrl.text
      = .ok ("did:example:123/some/path#frag").toList :=
  ⟨fun _ _ => rfl, by decide, by decide⟩


/-- C2 counterexample: at did:example:123/did:example:123 the
DID-part pattern matches did:example:123, that DID text reappears
verbatim later in the input (at position 16, giving the three-part
split result shown), yet parse raises the tuple-unpack ValueError
rather than decomposing the remainder after the first occurrence as
the url component — so the claim's consequence fails. -/
theorem PyDID.c2_counterexample :
    PyDID.didPartMatch ("did:example:123/did:example:123").toList
        = some (("did:example:123").toList) ∧
      ("did:example:123").toList.isPrefixOf
        (("did:example:123/did:example:123").toList.drop 16) = true ∧
      PyDID.pySplit (("did:example:123").toList)
          ("did:example:123/did:example:123").toList
        = [[], ['/'], []] ∧
      PyDID.DIDUrl.parse ("did:example:123/did:example:123").toList
        = .error .unpackValueError :=
  ⟨by decide, by decide, by decide, by decide⟩

/-- C2 amended: the split between the DID and the URL suffix is the
literal substring split of the whole input on the matched DID text
(Python str.split, not an index-based slice); when that split yields
exactly two parts the second part becomes the url component to
decompose, and for every input in which the matched DID text
reappears verbatim later, the split yields more than two parts and
the constructor raises ValueError from unpacking instead of
decomposing a remainder. -/
theorem PyDID.c2_amended :
    (∀ s d p0 comp, PyDID.didPartMatch s = some d →
      PyDID.pySplit d s = [p0, comp] →
      PyDID.matcherSplit s = .ok (some d, comp)) ∧
    (∀ s d j, PyDID.didPartMatch s = some d → j ≠ 0 →
      d.isPrefixOf (s.drop j) = true →
      PyDID.DIDUrl.parse s = .error .unpackValueError) := by
  constructor
  · intro s d p0 comp hm hsp
    unfold PyDID.matcherSplit
    rw [hm]
    dsimp only
    rw [hsp]
  · intro s d j hm hj hocc
    exact PyDID.parse_unpack_error hm hj hocc

/-- Witness for C2: the literal split of did:example:123/path yields
the url component /path, and the reappearing-DID input fails. -/
theorem PyDID.c2_witness :
    PyDID.matcherSplit ("did:example:123/path").toList
        = .ok (some ("did:example:123").toList, ("/path").toList) ∧
      PyDID.DIDUrl.parse ("did:example:123/did:example:123").toList
        = .error .unpackValueError :=
  ⟨PyDID.c2_amended.1 _ _ [] ("/path").toList (by decide) (by decide),
   PyDID.c2_amended.2 _ ("did:example:123").toList 16 (by decide) (by decide)
     (by decide)⟩

/-- C10: whenever the matched DID prefix occurs again at a nonzero
position of the input, the constructor raises ValueError from
unpacking the multi-part split result, so parse fails and is_valid
returns False, even though the input begins with a grammar-valid DID
prefix. -/
theorem PyDID.c10_multiple_did_occurrence (s d : List Char) (j : Nat)
    (hm : PyDID.didPartMatch s = some d) (hj : j ≠ 0)
    (hocc : d.isPrefixOf (s.drop j) = true) :
    PyDID.DIDUrl.parse s = .error .unpackValueError ∧
      PyDID.DIDUrl.is_valid s = .ok false := by
  have hp := PyDID.parse_unpack_error hm hj hocc
  refine ⟨hp, ?_⟩
  unfold PyDID.DIDUrl.is_valid PyDID.DIDUrl.validate
  rw [hp]
  rfl

/-- Witness for C10 at the example input
did:example:123/did:example:123. -/
theorem PyDID.c10_witness :
    PyDID.DIDUrl.parse ("did:example:123/did:example:123").toList
        = .error .unpackValueError ∧
      PyDID.DIDUrl.is_valid ("did:example:123/did:example:123").toList
        = .ok false :=
  PyDID.c10_multiple_did_occurrence _ ("did:example:123").toList 16
    (by decide) (by decide) (by decide)

namespace PyDID

/-! ## Helper lemmas tracking the fragment through urlsplit -/

theorem splitAtFirst_cons (d a : Char) (t : List Char) :
    splitAtFirst d (a :: t) =
      if a = d then some ([], t)
      else (splitAtFirst d t).map (fun p => (a :: p.1, p.2)) := rfl

theorem afterFirstHash_cons_ne {a : Char} (h : ¬ a = '#') (t : List Char) :
    afterFirstHash (a :: t) = afterFirstHash t := by
  unfold afterFirstHash
  rw [splitAtFirst_cons, if_neg h]
  cases splitAtFirst '#' t <;> rfl

theorem afterFirstHash_append (l : List Char) (hl : ∀ c ∈ l, ¬ c = '#') :
    ∀ m, afterFirstHash (l ++ m) = afterFirstHash m := by
  induction l with
  | nil => intro m; rfl
  | cons a l ih =>
    intro m
    rw [List.cons_append,
      afterFirstHash_cons_ne (hl a (List.mem_cons_self a l))]
    exact ih (fun c hc => hl c (List.mem_cons_of_mem a hc)) m

theorem splitAtFirst_some {d : Char} :
    ∀ {s b a : List Char}, splitAtFirst d s = some (b, a) →
      s = b ++ d :: a ∧ ∀ c ∈ b, ¬ c = d := by
  intro s
  induction s with
  | nil => intro b a h; cases h
  | cons c rest ih =>
    intro b a h
    rw [splitAtFirst_cons] at h
    by_cases hc : c = d
    · rw [if_pos hc] at h
      injection h with h
      injection h with h1 h2
      subst h1
      subst h2
      exact ⟨by rw [hc]; rfl, by intro x hx; cases hx⟩
    · rw [if_neg hc] at h
      cases hsp : splitAtFirst d rest with
      | none => rw [hsp] at h; cases h
      | some p =>
        rw [hsp] at h
        obtain ⟨b', a'⟩ := p
        dsimp only [Option.map] at h
        injection h with h
        injection h with h1 h2
        subst h1
        subst h2
        obtain ⟨hs, hmem⟩ := ih hsp
        constructor
        · rw [List.cons_append, ← hs]
        · intro x hx
          rcases List.mem_cons.mp hx with rfl | hx
          · exact hc
          · exact hmem x hx

theorem schemeChar_ne_hash {c : Char} (h : schemeChar c = true) : ¬ c = '#' := by
  intro he
  subst he
  exact absurd h (by decide)

theorem extractScheme_hash (u : List Char) :
    afterFirstHash (extractScheme u).2 = afterFirstHash u := by
  unfold extractScheme
  cases hsp : splitAtFirst ':' u with
  | none => rfl
  | some p =>
    obtain ⟨pre, post⟩ := p
    dsimp only
    split
    · rename_i hcond
      obtain ⟨hne, hhead, hall⟩ := hcond
      obtain ⟨hs, -⟩ := splitAtFirst_some hsp
      rw [hs, show pre ++ ':' :: post = (pre ++ [':']) ++ post from by
        rw [List.append_assoc]; rfl]
      refine (afterFirstHash_append (pre ++ [':']) ?_ post).symm
      intro c hc
      rcases List.mem_append.mp hc with hc | hc
      · exact schemeChar_ne_hash (List.all_eq_true.mp hall c hc)
      · rw [List.mem_singleton.mp hc]
        decide
    · rfl

theorem notDelim_ne_hash {c : Char} (h : (!netlocDelim c) = true) : ¬ c = '#' := by
  intro he
  subst he
  exact absurd h (by decide)

theorem extractNetloc_hash {u netloc u2 : List Char}
    (h : extractNetloc u = .ok (netloc, u2)) :
    afterFirstHash u2 = afterFirstHash u := by
  unfold extractNetloc at h
  split at h
  · split at h
    · cases h
    · rename_i rest hcond
      injection h with h
      injection h with h1 h2
      subst h2
      rw [afterFirstHash_cons_ne (by decide), afterFirstHash_cons_ne (by decide)]
      conv_rhs => rw [← List.takeWhile_append_dropWhile (fun c => !netlocDelim c) rest]
      exact (afterFirstHash_append _ (fun c hc =>
        notDelim_ne_hash (by simpa using List.mem_takeWhile_imp hc)) _).symm
  · injection h with h
    injection h with h1 h2
    subst h2
    rfl

theorem splitFragment_snd (u : List Char) :
    (splitFragment u).2 = afterFirstHash u := by
  unfold splitFragment afterFirstHash
  cases splitAtFirst '#' u <;> rfl

theorem pyUrlsplit_fragment {comp : List Char} {parts : UrlParts}
    (h : pyUrlsplit comp = .ok parts) :
    parts.fragment = afterFirstHash (cleanUrl comp) := by
  unfold pyUrlsplit at h
  cases hN : extractNetloc (extractScheme (cleanUrl comp)).2 with
  | error e => rw [hN] at h; cases h
  | ok p =>
    obtain ⟨netloc, u2⟩ := p
    rw [hN] at h
    dsimp only at h
    injection h with h
    subst h
    show (splitFragment u2).2 = _
    rw [splitFragment_snd, extractNetloc_hash hN, extractScheme_hash]

theorem pyUrlparse_fragment {comp : List Char} {parts : UrlParts}
    (h : pyUrlparse comp = .ok parts) :
    parts.fragment = afterFirstHash (cleanUrl comp) := by
  unfold pyUrlparse at h
  cases hs : pyUrlsplit comp with
  | error e => rw [hs] at h; cases h
  | ok parts0 =>
    rw [hs] at h
    dsimp only [Except.map] at h
    injection h with h
    have hfrag : parts.fragment = parts0.fragment := by
      rw [← h]
      split
      · rfl
      · rfl
    rw [hfrag]
    exact pyUrlsplit_fragment hs

/-- Parse, unfolded through its two fallible steps. -/
theorem parse_build {s comp : List Char} {did : Option (List Char)}
    {parts : UrlParts}
    (hm : matcherSplit s = .ok (did, comp)) (hp : pyUrlparse comp = .ok parts) :
    DIDUrl.parse s = .ok (buildDIDUrl s did parts) := by
  unfold DIDUrl.parse
  rw [hm]
  dsimp only
  rw [hp]

theorem fragChunk_of_truthy {v : FragArg} (hv : v.truthy = true)
    (hne : v.toStr ≠ []) :
    fragChunk (some v) = '#' :: v.toStr := by
  unfold fragChunk normFrag
  dsimp only
  rw [hv]
  simp [hne]

end PyDID

/-- C4 counterexample: parse(did:example:123?a) succeeds and its
query attribute is an empty-but-present mapping: the raw query
string a is non-empty (so the attribute is not None) but decodes to
no pairs under parse_qsl, giving an empty dict.  The claim's
"never an empty-but-present map" is therefore false. -/
theorem PyDID.c4_counterexample :
    (PyDID.DIDUrl.parse ("did:example:123?a").toList).map PyDID.DIDUrl.query
      = .ok (some ([] : List (List Char × List Char))) := by decide

/-- C4 amended: the query attribute is None exactly when the raw
query string of the URL component is empty or absent (in particular
parse(did:example:123?) yields query None, witnessed below); when
the raw query string is non-empty the attribute is the present
ordered mapping dict(parse_qsl(query)), which may itself be empty. -/
theorem PyDID.c4_amended (s comp : List Char) (did : Option (List Char))
    (parts : PyDID.UrlParts)
    (hm : PyDID.matcherSplit s = .ok (did, comp))
    (hp : PyDID.pyUrlparse comp = .ok parts) :
    ((PyDID.DIDUrl.parse s).map PyDID.DIDUrl.query = .ok none
        ↔ parts.query = []) ∧
    (parts.query ≠ [] →
      (PyDID.DIDUrl.parse s).map PyDID.DIDUrl.query
        = .ok (some (PyDID.dictOfPairs (PyDID.parse_qsl parts.query)))) := by
  rw [PyDID.parse_build hm hp]
  dsimp only [Except.map]
  unfold PyDID.buildDIDUrl
  dsimp only
  refine ⟨⟨?_, ?_⟩, ?_⟩
  · intro hq
    by_contra hne
    rw [if_neg hne] at hq
    simp at hq
  · intro hq
    rw [if_pos hq]
  · intro hne
    rw [if_neg hne]

/-- Witness for C4 at the spec's example: parse(did:example:123?)
yields query None (the raw query string is empty). -/
theorem PyDID.c4_witness :
    (PyDID.DIDUrl.parse ("did:example:123?").toList).map PyDID.DIDUrl.query
      = .ok none :=
  (PyDID.c4_amended ("did:example:123?").toList ("?").toList
    (some ("did:example:123").toList)
    ⟨[], [], [], [], [], []⟩ (by decide) (by decide)).1.mpr rfl

/-- C5 counterexample: unparse with the integer zero as fragment
treats it as absent: the truthiness of the original value is tested
before stringification, numeric zero is falsy, and the resulting
DIDUrl is did:example:123 with no fragment — not a DIDUrl with
fragment 0 as the claim asserts. -/
theorem PyDID.c5_counterexample :
    (PyDID.DIDUrl.unparse ("did:example:123").toList none none
        (some (.ofInt 0))).map PyDID.DIDUrl.fragment = .ok none ∧
      (PyDID.DIDUrl.unparse ("did:example:123").toList none none
        (some (.ofInt 0))).map PyDID.DIDUrl.text
        = .ok ("did:example:123").toList :=
  ⟨by decide, by decide⟩

/-- C5 amended: unparse tests the truthiness of the original
fragment argument before stringifying (fragment = str(fragment) if
fragment else None), so every falsy fragment — including numeric
zero — is treated as absent, while the non-empty string 0 is truthy
and yields a DIDUrl whose fragment is 0. -/
theorem PyDID.c5_amended :
    (∀ (d : List Char) (p : Option (List Char))
        (q : Option (List (List Char × List Char))) (v : PyDID.FragArg),
      v.truthy = false →
      PyDID.DIDUrl.unparse d p q (some v) = PyDID.DIDUrl.unparse d p q none) ∧
    (PyDID.DIDUrl.unparse ("did:example:123").toList none none
        (some (.ofStr ['0']))).map PyDID.DIDUrl.fragment
      = .ok (some ['0']) := by
  constructor
  · intro d p q v hv
    have hc : PyDID.composeValue d p q (some v) = PyDID.composeValue d p q none := by
      unfold PyDID.composeValue PyDID.fragChunk PyDID.normFrag
      dsimp only
      rw [hv]
      rfl
    exact congrArg PyDID.DIDUrl.parse hc
  · decide

/-- Witness for C5: numeric zero as fragment composes the same
DIDUrl as no fragment at all. -/
theorem PyDID.c5_witness :
    PyDID.DIDUrl.unparse ("did:example:123").toList none none
        (some (.ofInt 0))
      = PyDID.DIDUrl.unparse ("did:example:123").toList none none none :=
  PyDID.c5_amended.1 ("did:example:123").toList none none (.ofInt 0) (by decide)

/-- C6 counterexample: unparse with fragment a b appends the
stringified fragment verbatim after '#': the composed text ends in
the literal text a b, not in its percent-encoded form a%20b, so the
output does not end with the percent-encoded form of the fragment. -/
theorem PyDID.c6_counterexample :
    (PyDID.DIDUrl.unparse ("did:example:123").toList none none
        (some (.ofStr ("a b").toList))).map PyDID.DIDUrl.text
        = .ok ("did:example:123#a b").toList ∧
      PyDID.specPercentEncode ("a b").toList = ("a%20b").toList ∧
      (('#' :: PyDID.specPercentEncode ("a b").toList).isSuffixOf
        ("did:example:123#a b").toList) = false ∧
      (('#' :: ("a b").toList).isSuffixOf ("did:example:123#a b").toList) = true :=
  ⟨by decide, by decide, by decide, by decide⟩

/-- C6 amended: for every unparse call whose fragment is truthy and
stringifies to a non-empty string, the composed output ends with '#'
followed by the stringified fragment verbatim — no percent-encoding
is applied to it. -/
theorem PyDID.c6_amended (d : List Char) (p : Option (List Char))
    (q : Option (List (List Char × List Char))) (v : PyDID.FragArg)
    (u : PyDID.DIDUrl) (hv : v.truthy = true)
    (hne : PyDID.FragArg.toStr v ≠ [])
    (h : PyDID.DIDUrl.unparse d p q (some v) = .ok u) :
    ∃ pre, u.text = pre ++ '#' :: PyDID.FragArg.toStr v := by
  have ht : u.text = PyDID.composeValue d p q (some v) := PyDID.parse_ok_text h
  rw [ht]
  unfold PyDID.composeValue
  rw [PyDID.fragChunk_of_truthy hv hne]
  exact ⟨_, rfl⟩

/-- Witness for C6: the DIDUrl composed from did:example:123 and
fragment frag has a text ending in the verbatim fragment. -/
theorem PyDID.c6_witness :
    ∃ pre, (PyDID.DIDUrl.mk ("did:example:123#frag").toList
        (some ("did:example:123").toList) none none
        (some ("frag").toList)).text
      = pre ++ '#' :: PyDID.FragArg.toStr (.ofStr ("frag").toList) :=
  PyDID.c6_amended ("did:example:123").toList none none
    (.ofStr ("frag").toList) _ (by decide) (by decide) (by decide)

/-- C7 counterexample: parse(did:example:123#a%20b) stores the raw
text a%20b after '#' as the fragment attribute; the percent-decoded
text would be a b, so the fragment is not percent-decoded as the
claim asserts. -/
theorem PyDID.c7_counterexample :
    (PyDID.DIDUrl.parse ("did:example:123#a%20b").toList).map
        PyDID.DIDUrl.fragment
        = .ok (some (("a%20b").toList)) ∧
      PyDID.unquote ("a%20b").toList = ("a b").toList ∧
      ("a%20b").toList ≠ ("a b").toList :=
  ⟨by decide, by decide, by decide⟩

/-- C7 amended: for every successfully parsed DIDUrl, the fragment
attribute is the raw (undecoded) text after the first '#' of the URL
component (with tab/CR/LF characters removed by urlsplit), and None
when that text is empty or there is no '#'. -/
theorem PyDID.c7_amended (s comp : List Char) (did : Option (List Char))
    (parts : PyDID.UrlParts)
    (hm : PyDID.matcherSplit s = .ok (did, comp))
    (hp : PyDID.pyUrlparse comp = .ok parts) :
    (PyDID.DIDUrl.parse s).map PyDID.DIDUrl.fragment
      = .ok (if parts.fragment = [] then none else some parts.fragment) ∧
    parts.fragment = PyDID.afterFirstHash (PyDID.cleanUrl comp) := by
  constructor
  · rw [PyDID.parse_build hm hp]
    rfl
  · exact PyDID.pyUrlparse_fragment hp

/-- Witness for C7 on did:example:123#frag: the fragment attribute
is the raw text frag after the '#'. -/
theorem PyDID.c7_witness :
    (PyDID.DIDUrl.parse ("did:example:123#frag").toList).map
        PyDID.DIDUrl.fragment
      = .ok (if ("frag").toList = ([] : List Char) then none
             else some ("frag").toList) ∧
    ("frag").toList = PyDID.afterFirstHash (PyDID.cleanUrl ("#frag").toList) :=
  PyDID.c7_amended ("did:example:123#frag").toList ("#frag").toList
    (some ("did:example:123").toList)
    ⟨[], [], [], [], [], ("frag").toList⟩ (by decide) (by decide)
